import Mathlib

/-!
Verification development for the chemprop training pipeline.

This file gives a shallow embedding of the two source modules the claims
concern:

* `chemprop/features/features_generators.py` — the features-generator
  registry and the Morgan fingerprint generators (namespace
  `FeaturesGenerators`);
* `chemprop/train/run_training.py` — the ensemble training loop
  (namespace `RunTraining`).

External collaborators (RDKit, the data splitter, the neural model, the
evaluator) are modelled as explicit function parameters, so every
definition is executable once those parameters are instantiated.
-/

namespace FeaturesGenerators

/-- Abstract model of an RDKit molecule (`Chem.Mol`).  For the Morgan
fingerprint all that matters is, per radius, the multiset of hashed
substructure identifiers that RDKit's environment enumeration produces;
we carry them as a list indexed by the radius. -/
structure Mol where
  hashes : ℕ → List ℕ

/-- A molecule reference as accepted by the generators: either a SMILES
string (parsed via `Chem.MolFromSmiles`) or an already-parsed molecule.
This models the `Union[str, Chem.Mol]` element type. -/
inductive MolRef where
  | smiles (s : String)
  | mol (m : Mol)

/-- Input shape of a generator: a single molecule, or a list of
datapoints each holding an ordered sequence of molecules (the
`type(mol_data) == list` branch of the source). -/
inductive MolData where
  | single (m : MolRef)
  | grouped (gs : List (List MolRef))

/-- Output shape: a single 1-D vector for a single molecule, or a stacked
batch of vectors (`np.array(features)`) for grouped input. -/
inductive FPOutput where
  | single (v : List ℚ)
  | batch (vs : List (List ℚ))
deriving DecidableEq

/-- `molecule = Chem.MolFromSmiles(molecule) if type(molecule) == str else molecule`:
resolve a molecule reference with the given parser. -/
def resolveMol (parse : String → Mol) : MolRef → Mol
  | .smiles s => parse s
  | .mol m => m

/-- Model of `AllChem.GetMorganFingerprintAsBitVect(mol, radius, nBits=num_bits)`
followed by `DataStructs.ConvertToNumpyArray`: the hashed substructure
identifiers at the given radius are folded into `numBits` buckets and
each bucket reports presence as 0 or 1. -/
def getMorganFingerprintAsBitVect (m : Mol) (radius numBits : ℕ) : List ℚ :=
  (List.range numBits).map
    (fun i => if (m.hashes radius).any (fun h => h % numBits == i) then (1 : ℚ) else 0)

/-- Model of `AllChem.GetHashedMorganFingerprint(mol, radius, nBits=num_bits)`
followed by `DataStructs.ConvertToNumpyArray`: hashed occurrence counts
folded into `numBits` buckets. -/
def getHashedMorganFingerprint (m : Mol) (radius numBits : ℕ) : List ℚ :=
  (List.range numBits).map
    (fun i => (((m.hashes radius).filter (fun h => h % numBits == i)).length : ℚ))

def MORGAN_RADIUS : ℕ := 2

def MORGAN_NUM_BITS : ℕ := 2048

/-- One iteration of the inner loop of the grouped branch of
`morgan_binary_features_generator`: `entry_features.append(f)` for each
molecule of a datapoint, starting from `entry_features = []`. -/
def morganEntryFeatures (parse : String → Mol) (radius numBits : ℕ)
    (datapoint : List MolRef) : List (List ℚ) :=
  datapoint.foldl
    (fun entry_features molecule =>
      entry_features ++ [getMorganFingerprintAsBitVect (resolveMol parse molecule) radius numBits])
    []

/-- The outer loop of the grouped branch: `features.extend(entry_features)`
for each datapoint, starting from `features = []`. -/
def morganGroupedFeatures (parse : String → Mol) (radius numBits : ℕ)
    (gs : List (List MolRef)) : List (List ℚ) :=
  gs.foldl (fun features datapoint => features ++ morganEntryFeatures parse radius numBits datapoint) []

/-- `morgan_binary_features_generator` from the source: branch on the
input shape, apply the bit-vector fingerprint to every molecule. -/
def morgan_binary_features_generator (parse : String → Mol) (radius numBits : ℕ) :
    MolData → FPOutput
  | .grouped gs => .batch (morganGroupedFeatures parse radius numBits gs)
  | .single r => .single (getMorganFingerprintAsBitVect (resolveMol parse r) radius numBits)

/-- Inner loop of the grouped branch of `morgan_counts_features_generator`. -/
def morganCountEntryFeatures (parse : String → Mol) (radius numBits : ℕ)
    (datapoint : List MolRef) : List (List ℚ) :=
  datapoint.foldl
    (fun entry_features molecule =>
      entry_features ++ [getHashedMorganFingerprint (resolveMol parse molecule) radius numBits])
    []

/-- Outer loop of the grouped branch of `morgan_counts_features_generator`. -/
def morganCountGroupedFeatures (parse : String → Mol) (radius numBits : ℕ)
    (gs : List (List MolRef)) : List (List ℚ) :=
  gs.foldl (fun features datapoint => features ++ morganCountEntryFeatures parse radius numBits datapoint) []

/-- `morgan_counts_features_generator` from the source. -/
def morgan_counts_features_generator (parse : String → Mol) (radius numBits : ℕ) :
    MolData → FPOutput
  | .grouped gs => .batch (morganCountGroupedFeatures parse radius numBits gs)
  | .single r => .single (getHashedMorganFingerprint (resolveMol parse r) radius numBits)

/-- Type of a registered features generator: invocation either yields an
output or raises (models the mock generators raising `ImportError`). -/
def FGen : Type := MolData → Except String FPOutput

/-- `FEATURES_GENERATOR_REGISTRY[features_generator_name] = features_generator`:
Python dict assignment — overwrite the binding in place if the name is
already present, otherwise append it. -/
def registerFeaturesGenerator {α : Type} (name : String) (f : α) :
    List (String × α) → List (String × α)
  | [] => [(name, f)]
  | (n, g) :: rest =>
      if n = name then (name, f) :: rest
      else (n, g) :: registerFeaturesGenerator name f rest

/-- `features_generator_name in FEATURES_GENERATOR_REGISTRY` /
`FEATURES_GENERATOR_REGISTRY[features_generator_name]`: dict lookup. -/
def lookupGenerator {α : Type} : List (String × α) → String → Option α
  | [], _ => none
  | (n, g) :: rest, name => if n = name then some g else lookupGenerator rest name

/-- The error message of `get_features_generator` for an absent name. -/
def generatorNotFoundMessage (name : String) : String :=
  "Features generator \"" ++ name ++ "\" could not be found. " ++
    "If this generator relies on rdkit features, you may need to install descriptastorus."

/-- `get_features_generator`: return the registered generator, or raise
`ValueError` with an explanatory message if the name is absent. -/
def getFeaturesGenerator {α : Type} (reg : List (String × α)) (name : String) :
    Except String α :=
  match lookupGenerator reg name with
  | some f => .ok f
  | none => .error (generatorNotFoundMessage name)

/-- The message of the `ImportError` raised by the mock `rdkit_2d`
generator when descriptastorus failed to import. -/
def rdkit2dMissingMessage : String :=
  "Failed to import descriptastorus. Please install descriptastorus " ++
    "(https://github.com/bp-kelley/descriptastorus) to use RDKit 2D features."

/-- The message of the `ImportError` raised by the mock
`rdkit_2d_normalized` generator. -/
def rdkit2dNormalizedMissingMessage : String :=
  "Failed to import descriptastorus. Please install descriptastorus " ++
    "(https://github.com/bp-kelley/descriptastorus) to use RDKit 2D normalized features."

/-- The mock `rdkit_2d_features_generator` registered in the
`except ImportError` branch: every invocation raises. -/
def rdkit_2d_mock : FGen := fun _ => .error rdkit2dMissingMessage

/-- The mock `rdkit_2d_normalized_features_generator` registered in the
`except ImportError` branch. -/
def rdkit_2d_normalized_mock : FGen := fun _ => .error rdkit2dNormalizedMissingMessage

/-- The registered `morgan` generator: `morgan_binary_features_generator`
at its default radius and bit-width; it never raises. -/
def morganRegistered (parse : String → Mol) : FGen :=
  fun md => .ok (morgan_binary_features_generator parse MORGAN_RADIUS MORGAN_NUM_BITS md)

/-- The registered `morgan_count` generator. -/
def morganCountRegistered (parse : String → Mol) : FGen :=
  fun md => .ok (morgan_counts_features_generator parse MORGAN_RADIUS MORGAN_NUM_BITS md)

/-- Module initialisation: the decorators run in source order —
`morgan`, `morgan_count`, then `rdkit_2d` and `rdkit_2d_normalized`,
the latter two being the real descriptastorus-backed generators when
the module loads (`rdkit2d`, `rdkit2dNorm` parameters) and the raising
mocks otherwise. -/
def initialRegistry (parse : String → Mol) (descriptastorusAvailable : Bool)
    (rdkit2d rdkit2dNorm : FGen) : List (String × FGen) :=
  let reg := registerFeaturesGenerator "morgan" (morganRegistered parse) []
  let reg := registerFeaturesGenerator "morgan_count" (morganCountRegistered parse) reg
  if descriptastorusAvailable then
    let reg := registerFeaturesGenerator "rdkit_2d" rdkit2d reg
    registerFeaturesGenerator "rdkit_2d_normalized" rdkit2dNorm reg
  else
    let reg := registerFeaturesGenerator "rdkit_2d" rdkit_2d_mock reg
    registerFeaturesGenerator "rdkit_2d_normalized" rdkit_2d_normalized_mock reg

/-- `sub` occurs inside `s` (stated on the underlying character lists). -/
def mentionsText (sub s : String) : Prop :=
  ∃ a b : List Char, s.data = a ++ sub.data ++ b

end FeaturesGenerators

namespace RunTraining

/-- Model of a Python float score value as produced by the evaluator:
a rational number, one of the two infinities (`float('inf')` /
`-float('inf')` used to initialise `best_score`), or `nan`. -/
inductive FloatVal where
  | nan
  | inf
  | negInf
  | num (q : ℚ)
deriving DecidableEq

/-- IEEE `<` on the float model: any comparison with `nan` is false. -/
def FloatVal.lt : FloatVal → FloatVal → Bool
  | .nan, _ => false
  | _, .nan => false
  | .negInf, .negInf => false
  | .negInf, _ => true
  | _, .negInf => false
  | .inf, _ => false
  | .num _, .inf => true
  | .num a, .num b => decide (a < b)

/-- One datapoint of a `MoleculeDataset`: for the properties at stake
only its per-task target vector matters (entries may be missing). -/
structure Datapoint where
  targets : List (Option ℚ)
deriving DecidableEq

/-- A `MoleculeDataset` is an ordered sequence of datapoints. -/
def Dataset : Type := List Datapoint

/-- The training arguments (`TrainArgs`) relevant to the claims. -/
structure TrainArgs where
  metrics : List String
  metric : String
  taskNames : List String
  numTasks : ℕ
  ensembleSize : ℕ
  epochs : ℕ
  minimizeScore : Bool
  savePreds : Bool
  datasetType : String
  featuresScaling : Bool
  atomDescriptorScaling : Bool
  bondFeatureScaling : Bool
deriving DecidableEq

/-- A checkpoint as written by `save_checkpoint(path, model, scaler,
features_scaler, atom_descriptor_scaler, bond_feature_scaler, args)`:
the model weights bundled with the four scalers and the arguments. -/
structure Checkpoint (M S : Type) where
  model : M
  scaler : Option S
  featuresScaler : Option S
  atomDescriptorScaler : Option S
  bondFeatureScaler : Option S
  args : TrainArgs
deriving DecidableEq

/-- Observable file-system events of a run: checkpoint writes and reads
in a member's directory, the `test_scores.json` write, and the optional
`test_preds.csv` write. -/
inductive Event (M S : Type) where
  | saveCheckpoint (modelIdx : ℕ) (chk : Checkpoint M S)
  | loadCheckpoint (modelIdx : ℕ)
  | writeScoresFile (entries : List (String × List FloatVal))
  | writePredsFile
deriving DecidableEq

/-- The external collaborators `run_training` drives: the data splitter,
scaler fitting, model construction and one-epoch training, the
validation evaluator and `multitask_mean`, test-set prediction, and
`evaluate_predictions`. -/
structure Collaborators (M S : Type) where
  splitData : Dataset → Dataset × Dataset × Dataset
  fitFeaturesScaler : Dataset → S
  fitAtomDescriptorScaler : Dataset → S
  fitBondFeatureScaler : Dataset → S
  fitTargetScaler : Dataset → S
  buildModel : ℕ → M
  trainOneEpoch : M → M
  evaluate : M → String → List FloatVal
  multitaskMean : List FloatVal → String → FloatVal
  predict : M → List (List ℚ)
  evaluatePredictions : List (List ℚ) → List (List (Option ℚ)) → List (String × List FloatVal)

/-- The `ValueError` message raised when the validation split is empty
(Python's line continuations keep the next line's indentation inside the
string). -/
def emptyValMessage : String :=
  "The validation data split is empty. During normal chemprop training (non-sklearn functions), " ++
    "            a validation set is required to conduct early stopping according to the selected evaluation metric. This " ++
    "            may have occurred because validation data provided with `--separate_val_path` was empty or contained only invalid molecules."

/-- The fatal error a run can abort with. -/
inductive RunError where
  | configurationError (msg : String)
deriving DecidableEq

/-- Per-member mutable state of the epoch loop: the current weights,
`best_score`, `best_epoch`, the content of `model.pt` on disk in the
member's directory, the epochs at which a checkpoint was saved, and the
event trace so far. -/
structure EpochState (M S : Type) where
  model : M
  bestScore : FloatVal
  bestEpoch : ℕ
  disk : Checkpoint M S
  savedEpochs : List ℕ
  events : List (Event M S)

/-- One iteration of `for epoch in trange(args.epochs)`: train one epoch,
evaluate on validation, aggregate the primary metric with
`multitask_mean`, and save a checkpoint iff the aggregate strictly
improves on `best_score` in the direction of `args.minimize_score`. -/
def runEpoch {M S : Type} (C : Collaborators M S) (args : TrainArgs)
    (chk : M → Checkpoint M S) (modelIdx : ℕ)
    (st : EpochState M S) (epoch : ℕ) : EpochState M S :=
  let model := C.trainOneEpoch st.model
  let valScores := C.evaluate model args.metric
  let meanValScore := C.multitaskMean valScores args.metric
  if (args.minimizeScore && FloatVal.lt meanValScore st.bestScore) ||
      (!args.minimizeScore && FloatVal.lt st.bestScore meanValScore) then
    { model := model, bestScore := meanValScore, bestEpoch := epoch,
      disk := chk model, savedEpochs := st.savedEpochs ++ [epoch],
      events := st.events ++ [.saveCheckpoint modelIdx (chk model)] }
  else
    { st with model := model }

/-- Result of one ensemble member's training: its event trace, the model
reloaded from the best checkpoint, its test predictions (absent when the
test set is empty), and the final epoch-loop state. -/
structure MemberResult (M S : Type) where
  events : List (Event M S)
  loadedModel : M
  testPreds : Option (List (List ℚ))
  finalState : EpochState M S

/-- The body of `for model_idx in range(args.ensemble_size)`: build the
model, save an initial checkpoint (so a checkpoint exists even with zero
epochs), run the epoch loop with `best_score` initialised to the
appropriate infinity, reload the checkpoint from disk, and predict on
the test set unless it is empty. -/
def runMember {M S : Type} (C : Collaborators M S) (args : TrainArgs)
    (scaler featuresScaler atomDescriptorScaler bondFeatureScaler : Option S)
    (emptyTestSet : Bool) (modelIdx : ℕ) : MemberResult M S :=
  let model := C.buildModel modelIdx
  let chk : M → Checkpoint M S :=
    fun m => ⟨m, scaler, featuresScaler, atomDescriptorScaler, bondFeatureScaler, args⟩
  let st0 : EpochState M S :=
    { model := model,
      bestScore := if args.minimizeScore then .inf else .negInf,
      bestEpoch := 0,
      disk := chk model,
      savedEpochs := [],
      events := [.saveCheckpoint modelIdx (chk model)] }
  let final := (List.range args.epochs).foldl (runEpoch C args chk modelIdx) st0
  let loaded := final.disk.model
  { events := final.events ++ [.loadCheckpoint modelIdx],
    loadedModel := loaded,
    testPreds := if emptyTestSet then none else some (C.predict loaded),
    finalState := final }

/-- `sum_test_preds += np.array(test_preds)`: element-wise matrix
addition. -/
def matAdd (a b : List (List ℚ)) : List (List ℚ) :=
  List.zipWith (List.zipWith (· + ·)) a b

/-- `sum_test_preds / args.ensemble_size`: element-wise division. -/
def matDiv (a : List (List ℚ)) (n : ℕ) : List (List ℚ) :=
  a.map (fun row => row.map (fun x => x / (n : ℚ)))

/-- Code-point-wise lexicographic comparison of character lists: the
order Python's `sorted` (and hence `json.dump(..., sort_keys=True)`)
uses on strings. -/
def strLeAux : List Char → List Char → Bool
  | [], _ => true
  | _ :: _, [] => false
  | a :: as, b :: bs => if a = b then strLeAux as bs else decide (a < b)

/-- Lexicographic string comparison by code point. -/
def strLe (a b : String) : Bool := strLeAux a.data b.data

/-- Key order of `json.dump(..., sort_keys=True)` on the score entries. -/
def entryLe {α : Type} (a b : String × α) : Prop := strLe a.1 b.1 = true

instance {α : Type} : DecidableRel (@entryLe α) :=
  fun a b => inferInstanceAs (Decidable (strLe a.1 b.1 = true))

/-- Serialisation order of `json.dump(..., sort_keys=True)`: the entries
sorted by key. -/
def dumpSortKeys {α : Type} (entries : List (String × α)) : List (String × α) :=
  List.insertionSort entryLe entries

/-- The values `run_training` computes before the ensemble loop: the
three splits, the optional feature/atom/bond scalers fitted on the
training split, the optional target scaler (fitted only for
regression), and the `empty_test_set` flag.  (In the source the target
scaler is fitted after the empty-validation check; all fits are pure
here, so gathering them in one record preserves every value.) -/
structure Prepared (S : Type) where
  train_data : Dataset
  val_data : Dataset
  test_data : Dataset
  features_scaler : Option S
  atom_descriptor_scaler : Option S
  bond_feature_scaler : Option S
  scaler : Option S
  empty_test_set : Bool

/-- Split the data and fit the scalers, as `run_training` does up to the
start of the ensemble loop. -/
def prepare {M S : Type} (C : Collaborators M S) (args : TrainArgs)
    (data : Dataset) : Prepared S :=
  let split := C.splitData data
  let train_data := split.1
  let val_data := split.2.1
  let test_data := split.2.2
  { train_data := train_data,
    val_data := val_data,
    test_data := test_data,
    features_scaler :=
      if args.featuresScaling then some (C.fitFeaturesScaler train_data) else none,
    atom_descriptor_scaler :=
      if args.atomDescriptorScaling then some (C.fitAtomDescriptorScaler train_data) else none,
    bond_feature_scaler :=
      if args.bondFeatureScaling then some (C.fitBondFeatureScaler train_data) else none,
    scaler :=
      if args.datasetType = "regression" then some (C.fitTargetScaler train_data) else none,
    empty_test_set := test_data.length == 0 }

/-- Ensemble member `model_idx` of the run, trained with the fitted
scalers. -/
def memberOf {M S : Type} (C : Collaborators M S) (args : TrainArgs)
    (data : Dataset) (modelIdx : ℕ) : MemberResult M S :=
  let p := prepare C args data
  runMember C args p.scaler p.features_scaler p.atom_descriptor_scaler
    p.bond_feature_scaler p.empty_test_set modelIdx

/-- `sum_test_preds`: starts as `np.zeros((len(test_smiles),
args.num_tasks))` and accumulates `+= np.array(test_preds)` for every
member whose (non-empty) test predictions were computed. -/
def sumTestPreds {M S : Type} (C : Collaborators M S) (args : TrainArgs)
    (data : Dataset) : List (List ℚ) :=
  let p := prepare C args data
  let sum_init : List (List ℚ) :=
    List.replicate p.test_data.length (List.replicate args.numTasks (0 : ℚ))
  ((List.range args.ensembleSize).map (memberOf C args data)).foldl
    (fun s m => match m.testPreds with
      | some preds => if preds.length ≠ 0 then matAdd s preds else s
      | none => s)
    sum_init

/-- `avg_test_preds = (sum_test_preds / args.ensemble_size).tolist()`. -/
def ensembleAvgPreds {M S : Type} (C : Collaborators M S) (args : TrainArgs)
    (data : Dataset) : List (List ℚ) :=
  matDiv (sumTestPreds C args data) args.ensembleSize

/-- `run_training(args, data)`.  Returns the event trace together with
either the fatal error or the returned `ensemble_scores`.  Logging,
tensorboard and Neptune calls are omitted: they produce no observable
state the claims mention.  Mirrors the source's order: split, fit the
scalers, check the validation split, record test emptiness, train each
ensemble member, average the test predictions, evaluate the average (or
report `nan` per metric and task when the test set is empty), and
persist the scores with sorted keys. -/
def run_training {M S : Type} (C : Collaborators M S) (args : TrainArgs)
    (data : Dataset) :
    List (Event M S) × Except RunError (List (String × List FloatVal)) :=
  let p := prepare C args data
  if p.val_data.length = 0 then
    ([], .error (.configurationError emptyValMessage))
  else
    let test_targets := p.test_data.map (fun d => d.targets)
    let members := (List.range args.ensembleSize).map (memberOf C args data)
    let member_events := (members.map (fun m => m.events)).flatten
    let ensemble_scores :=
      if p.empty_test_set then
        args.metrics.map (fun metric => (metric, args.taskNames.map (fun _ => FloatVal.nan)))
      else
        C.evaluatePredictions (ensembleAvgPreds C args data) test_targets
    let events := member_events ++ [.writeScoresFile (dumpSortKeys ensemble_scores)] ++
      (if args.savePreds && !p.empty_test_set then [.writePredsFile] else [])
    (events, .ok ensemble_scores)

/-- Test predictions of ensemble member `i` (the member's reloaded best
model run over the test loader). -/
def memberTestPreds {M S : Type} (C : Collaborators M S) (args : TrainArgs)
    (data : Dataset) (i : ℕ) : List (List ℚ) :=
  C.predict ((memberOf C args data i).loadedModel)

/-- Entry `(r, c)` of a prediction matrix (0 outside the matrix). -/
def mEntry (m : List (List ℚ)) (r c : ℕ) : ℚ := (m.getD r []).getD c 0

/-- The matrix has `rows` rows, each of length `cols`. -/
def hasShape (m : List (List ℚ)) (rows cols : ℕ) : Prop :=
  m.length = rows ∧ ∀ row ∈ m, row.length = cols

instance (m : List (List ℚ)) (rows cols : ℕ) : Decidable (hasShape m rows cols) := by
  unfold hasShape; infer_instance

/-- Is the event the `test_scores.json` write? -/
def isScoresWrite {M S : Type} : Event M S → Bool
  | .writeScoresFile _ => true
  | _ => false

/-- Is the event a checkpoint save or load inside an ensemble member's
directory (the per-member file-system activity)? -/
def isMemberEvent {M S : Type} : Event M S → Bool
  | .saveCheckpoint _ _ => true
  | .loadCheckpoint _ => true
  | _ => false

/-- The aggregate validation score of epoch `e` (epoch `e` trains the
model for its `e + 1`-st pass): `multitask_mean(val_scores[args.metric],
metric=args.metric)`. -/
def scoreAt {M S : Type} (C : Collaborators M S) (args : TrainArgs) (model0 : M)
    (e : ℕ) : FloatVal :=
  C.multitaskMean (C.evaluate (C.trainOneEpoch^[e + 1] model0) args.metric) args.metric

/-- `best_score = float('inf') if args.minimize_score else -float('inf')`. -/
def initBest (minimize : Bool) : FloatVal := if minimize then .inf else .negInf

/-- `args.minimize_score and mean_val_score < best_score or
not args.minimize_score and mean_val_score > best_score`: does score `a`
strictly improve on `b` in the configured direction? -/
def betterThan (minimize : Bool) (a b : FloatVal) : Bool :=
  (minimize && FloatVal.lt a b) || (!minimize && FloatVal.lt b a)

/-- The best aggregate validation score seen strictly before epoch `e`
(`best_score` at the start of epoch `e`). -/
def runningBest {M S : Type} (C : Collaborators M S) (args : TrainArgs) (model0 : M) :
    ℕ → FloatVal
  | 0 => initBest args.minimizeScore
  | e + 1 =>
      if betterThan args.minimizeScore (scoreAt C args model0 e)
          (runningBest C args model0 e) then
        scoreAt C args model0 e
      else runningBest C args model0 e

/-- The state of a member's epoch loop after its first `E` epochs,
starting from the freshly built model with the initial checkpoint on
disk (as in `runMember`). -/
def epochLoopState {M S : Type} (C : Collaborators M S) (args : TrainArgs)
    (chk : M → Checkpoint M S) (i : ℕ) (model0 : M) (E : ℕ) : EpochState M S :=
  (List.range E).foldl (runEpoch C args chk i)
    { model := model0, bestScore := initBest args.minimizeScore, bestEpoch := 0,
      disk := chk model0, savedEpochs := [],
      events := [Event.saveCheckpoint i (chk model0)] }

/-- A concrete datapoint for exercising the run on small inputs. -/
def demoDatapoint : Datapoint := ⟨[some 1]⟩

/-- A two-datapoint dataset. -/
def demoData : Dataset := [demoDatapoint, demoDatapoint]

/-- Small concrete training arguments: two metrics, one task, an
ensemble of two, two epochs, maximisation. -/
def demoArgs : TrainArgs :=
  { metrics := ["rmse", "auc"], metric := "auc", taskNames := ["t1"], numTasks := 1,
    ensembleSize := 2, epochs := 2, minimizeScore := false, savePreds := false,
    datasetType := "classification", featuresScaling := false,
    atomDescriptorScaling := false, bondFeatureScaling := false }

/-- `demoArgs` with a zero epoch budget. -/
def demoArgsZeroEpochs : TrainArgs :=
  { demoArgs with epochs := 0 }

/-- Concrete collaborators over natural-number models and scalers: the
split returns the whole data for each partition, training increments the
model, validation scores the model value, prediction emits a 2-by-1
matrix, and evaluation reports the first averaged prediction entry. -/
def demoCollab : Collaborators ℕ ℕ :=
  { splitData := fun d => (d, d, d),
    fitFeaturesScaler := fun _ => 0,
    fitAtomDescriptorScaler := fun _ => 0,
    fitBondFeatureScaler := fun _ => 0,
    fitTargetScaler := fun _ => 0,
    buildModel := fun i => i,
    trainOneEpoch := fun m => m + 1,
    evaluate := fun m _ => [FloatVal.num (m : ℚ)],
    multitaskMean := fun scores _ => scores.headD FloatVal.nan,
    predict := fun m => [[(m : ℚ)], [(m : ℚ) + 1]],
    evaluatePredictions := fun preds _ => [("auc", [FloatVal.num (mEntry preds 0 0)])] }

/-- `demoCollab` with an empty validation partition. -/
def demoCollabEmptyVal : Collaborators ℕ ℕ :=
  { demoCollab with splitData := fun d => (d, [], d) }

/-- `demoCollab` with an empty test partition. -/
def demoCollabEmptyTest : Collaborators ℕ ℕ :=
  { demoCollab with splitData := fun d => (d, d, []) }

/-- `demoCollab` with training a no-op, so every epoch scores the same
(producing validation-score ties). -/
def demoCollabTie : Collaborators ℕ ℕ :=
  { demoCollab with trainOneEpoch := fun m => m }

end RunTraining

namespace FeaturesGenerators

theorem foldl_append_singleton {α β : Type} (f : α → β) (l : List α) (acc : List β) :
    l.foldl (fun a x => a ++ [f x]) acc = acc ++ l.map f := by
  induction l generalizing acc with
  | nil => simp
  | cons x xs ih => simp [ih]

theorem foldl_extend {α β : Type} (g : α → List β) (l : List α) (acc : List β) :
    l.foldl (fun a x => a ++ g x) acc = acc ++ (l.map g).flatten := by
  induction l generalizing acc with
  | nil => simp
  | cons x xs ih => simp [ih]

theorem morganEntryFeatures_eq_map (parse : String → Mol) (radius numBits : ℕ)
    (datapoint : List MolRef) :
    morganEntryFeatures parse radius numBits datapoint =
      datapoint.map (fun r => getMorganFingerprintAsBitVect (resolveMol parse r) radius numBits) := by
  simpa using foldl_append_singleton
    (fun r => getMorganFingerprintAsBitVect (resolveMol parse r) radius numBits) datapoint []

theorem morganCountEntryFeatures_eq_map (parse : String → Mol) (radius numBits : ℕ)
    (datapoint : List MolRef) :
    morganCountEntryFeatures parse radius numBits datapoint =
      datapoint.map (fun r => getHashedMorganFingerprint (resolveMol parse r) radius numBits) := by
  simpa using foldl_append_singleton
    (fun r => getHashedMorganFingerprint (resolveMol parse r) radius numBits) datapoint []

theorem morganGroupedFeatures_eq_flatten (parse : String → Mol) (radius numBits : ℕ)
    (gs : List (List MolRef)) :
    morganGroupedFeatures parse radius numBits gs =
      (gs.map (fun g => g.map (fun r =>
        getMorganFingerprintAsBitVect (resolveMol parse r) radius numBits))).flatten := by
  unfold morganGroupedFeatures
  rw [foldl_extend]
  simp only [List.nil_append]
  congr 1
  exact List.map_congr_left (fun d _ => morganEntryFeatures_eq_map parse radius numBits d)

theorem morganCountGroupedFeatures_eq_flatten (parse : String → Mol) (radius numBits : ℕ)
    (gs : List (List MolRef)) :
    morganCountGroupedFeatures parse radius numBits gs =
      (gs.map (fun g => g.map (fun r =>
        getHashedMorganFingerprint (resolveMol parse r) radius numBits))).flatten := by
  unfold morganCountGroupedFeatures
  rw [foldl_extend]
  simp only [List.nil_append]
  congr 1
  exact List.map_congr_left (fun d _ => morganCountEntryFeatures_eq_map parse radius numBits d)

/-- C7: on grouped input both Morgan generators apply the
single-molecule fingerprint to every molecule of every group and return
the per-molecule vectors flattened across groups in group order, so the
number of output vectors is the total number of molecules. -/
theorem morgan_grouped_flatten_order (parse : String → Mol) (radius numBits : ℕ)
    (gs : List (List MolRef)) :
    morgan_binary_features_generator parse radius numBits (.grouped gs) =
      .batch ((gs.map (fun g => g.map (fun r =>
        getMorganFingerprintAsBitVect (resolveMol parse r) radius numBits))).flatten) ∧
    morgan_counts_features_generator parse radius numBits (.grouped gs) =
      .batch ((gs.map (fun g => g.map (fun r =>
        getHashedMorganFingerprint (resolveMol parse r) radius numBits))).flatten) ∧
    (morganGroupedFeatures parse radius numBits gs).length = (gs.map List.length).sum ∧
    (morganCountGroupedFeatures parse radius numBits gs).length = (gs.map List.length).sum := by
  refine ⟨?_, ?_, ?_, ?_⟩
  · simp [morgan_binary_features_generator, morganGroupedFeatures_eq_flatten]
  · simp [morgan_counts_features_generator, morganCountGroupedFeatures_eq_flatten]
  · rw [morganGroupedFeatures_eq_flatten]
    rw [List.length_flatten, List.map_map]
    exact congrArg List.sum (List.map_congr_left fun g _ => by simp)
  · rw [morganCountGroupedFeatures_eq_flatten]
    rw [List.length_flatten, List.map_map]
    exact congrArg List.sum (List.map_congr_left fun g _ => by simp)

/-- C8: for a single molecule both Morgan generators return a vector of
exactly the configured bit-width (`numBits`; default
`MORGAN_NUM_BITS = 2048`, with default radius `MORGAN_RADIUS = 2`), and
the generators are deterministic functions of their inputs. -/
theorem morgan_single_fixed_length_deterministic (parse : String → Mol)
    (radius numBits : ℕ) (r : MolRef) :
    (getMorganFingerprintAsBitVect (resolveMol parse r) radius numBits).length = numBits ∧
    (getHashedMorganFingerprint (resolveMol parse r) radius numBits).length = numBits ∧
    MORGAN_RADIUS = 2 ∧ MORGAN_NUM_BITS = 2048 ∧
    morgan_binary_features_generator parse MORGAN_RADIUS MORGAN_NUM_BITS (.single r) =
      .single (getMorganFingerprintAsBitVect (resolveMol parse r) 2 2048) ∧
    (getMorganFingerprintAsBitVect (resolveMol parse r) MORGAN_RADIUS MORGAN_NUM_BITS).length = 2048 ∧
    (getHashedMorganFingerprint (resolveMol parse r) MORGAN_RADIUS MORGAN_NUM_BITS).length = 2048 ∧
    morgan_binary_features_generator parse radius numBits (.single r) =
      morgan_binary_features_generator parse radius numBits (.single r) ∧
    morgan_counts_features_generator parse radius numBits (.single r) =
      morgan_counts_features_generator parse radius numBits (.single r) := by
  refine ⟨?_, ?_, rfl, rfl, rfl, ?_, ?_, rfl, rfl⟩
  · simp [getMorganFingerprintAsBitVect]
  · simp [getHashedMorganFingerprint]
  · simp [getMorganFingerprintAsBitVect, MORGAN_NUM_BITS]
  · simp [getHashedMorganFingerprint, MORGAN_NUM_BITS]

theorem lookup_register {α : Type} (reg : List (String × α)) (name : String) (f : α) :
    lookupGenerator (registerFeaturesGenerator name f reg) name = some f := by
  induction reg with
  | nil => simp [registerFeaturesGenerator, lookupGenerator]
  | cons hd tl ih =>
    obtain ⟨n, g⟩ := hd
    by_cases h : n = name
    · simp [registerFeaturesGenerator, h, lookupGenerator]
    · simp [registerFeaturesGenerator, h, lookupGenerator, ih]

/-- C5: `register` followed by `get` returns the very generator that was
registered; re-registering under the same name silently overwrites the
previous entry; and `get` on a name that was never registered fails with
the documented error whose message mentions installing the optional
dependency (descriptastorus). -/
theorem register_get_roundtrip_overwrite_notfound {α : Type}
    (reg : List (String × α)) (name : String) (f g : α)
    (habsent : lookupGenerator reg name = none) :
    getFeaturesGenerator (registerFeaturesGenerator name f reg) name = Except.ok f ∧
    getFeaturesGenerator
      (registerFeaturesGenerator name g (registerFeaturesGenerator name f reg)) name =
      Except.ok g ∧
    getFeaturesGenerator reg name = Except.error (generatorNotFoundMessage name) ∧
    mentionsText "install descriptastorus" (generatorNotFoundMessage name) := by
  refine ⟨?_, ?_, ?_, ?_⟩
  · simp [getFeaturesGenerator, lookup_register]
  · simp [getFeaturesGenerator, lookup_register]
  · simp [getFeaturesGenerator, habsent]
  · refine ⟨("Features generator \"" ++ name ++
      "\" could not be found. If this generator relies on rdkit features, you may need to ").data,
      ".".data, ?_⟩
    simp [generatorNotFoundMessage, String.data_append, List.append_assoc]

/-- Witness for C5 at a concrete registry, name and generators. -/
theorem register_get_roundtrip_overwrite_notfound_witness :
    lookupGenerator ([] : List (String × ℕ)) "custom" = none ∧
    (getFeaturesGenerator (registerFeaturesGenerator "custom" 7 ([] : List (String × ℕ)))
        "custom" = Except.ok 7 ∧
      getFeaturesGenerator
        (registerFeaturesGenerator "custom" 8
          (registerFeaturesGenerator "custom" 7 ([] : List (String × ℕ)))) "custom" =
        Except.ok 8 ∧
      getFeaturesGenerator ([] : List (String × ℕ)) "custom" =
        Except.error (generatorNotFoundMessage "custom") ∧
      mentionsText "install descriptastorus" (generatorNotFoundMessage "custom")) :=
  ⟨rfl, register_get_roundtrip_overwrite_notfound [] "custom" 7 8 rfl⟩

/-- C6: with descriptastorus unavailable at module initialisation, the
names `rdkit_2d` and `rdkit_2d_normalized` are still registered (lookup
succeeds), invoking the registered placeholder on any input fails with
the import error naming descriptastorus, and lookup success is
independent of availability. -/
theorem rdkit_placeholder_registered_invocation_fails (parse : String → Mol)
    (rdkit2d rdkit2dNorm : FGen) (md : MolData) :
    getFeaturesGenerator (initialRegistry parse false rdkit2d rdkit2dNorm) "rdkit_2d" =
      Except.ok rdkit_2d_mock ∧
    getFeaturesGenerator (initialRegistry parse false rdkit2d rdkit2dNorm)
      "rdkit_2d_normalized" = Except.ok rdkit_2d_normalized_mock ∧
    rdkit_2d_mock md = Except.error rdkit2dMissingMessage ∧
    rdkit_2d_normalized_mock md = Except.error rdkit2dNormalizedMissingMessage ∧
    mentionsText "descriptastorus" rdkit2dMissingMessage ∧
    mentionsText "descriptastorus" rdkit2dNormalizedMissingMessage ∧
    (∀ avail : Bool,
      (∃ h, getFeaturesGenerator (initialRegistry parse avail rdkit2d rdkit2dNorm)
        "rdkit_2d" = Except.ok h) ∧
      (∃ h, getFeaturesGenerator (initialRegistry parse avail rdkit2d rdkit2dNorm)
        "rdkit_2d_normalized" = Except.ok h)) := by
  refine ⟨rfl, rfl, rfl, rfl, ?_, ?_, ?_⟩
  · exact ⟨"Failed to import ".data,
      ". Please install descriptastorus (https://github.com/bp-kelley/descriptastorus) to use RDKit 2D features.".data,
      by decide⟩
  · exact ⟨"Failed to import ".data,
      ". Please install descriptastorus (https://github.com/bp-kelley/descriptastorus) to use RDKit 2D normalized features.".data,
      by decide⟩
  · intro avail
    cases avail
    · exact ⟨⟨rdkit_2d_mock, rfl⟩, ⟨rdkit_2d_normalized_mock, rfl⟩⟩
    · exact ⟨⟨rdkit2d, rfl⟩, ⟨rdkit2dNorm, rfl⟩⟩

end FeaturesGenerators

namespace RunTraining

/-- C2: if the validation partition is empty after splitting,
`run_training` aborts with the configuration error before producing any
event — in particular before any model is built, trained or
checkpointed. -/
theorem run_training_empty_val_fatal {M S : Type} (C : Collaborators M S)
    (args : TrainArgs) (data : Dataset)
    (hval : (C.splitData data).2.1.length = 0) :
    run_training C args data =
      ([], Except.error (RunError.configurationError emptyValMessage)) := by
  have hp : (prepare C args data).val_data = (C.splitData data).2.1 := rfl
  unfold run_training
  simp only [hp, hval, if_pos]

/-- The nan score table reported for an empty test set: each requested
metric maps to one `nan` per task. -/
theorem run_training_val_nonempty_shape {M S : Type} (C : Collaborators M S)
    (args : TrainArgs) (data : Dataset)
    (hval : (C.splitData data).2.1.length ≠ 0) :
    run_training C args data =
      (let p := prepare C args data
       let test_targets := p.test_data.map (fun d => d.targets)
       let members := (List.range args.ensembleSize).map (memberOf C args data)
       let member_events := (members.map (fun m => m.events)).flatten
       let ensemble_scores :=
         if p.empty_test_set then
           args.metrics.map (fun metric => (metric, args.taskNames.map (fun _ => FloatVal.nan)))
         else
           C.evaluatePredictions (ensembleAvgPreds C args data) test_targets
       let events := member_events ++ [Event.writeScoresFile (dumpSortKeys ensemble_scores)] ++
         (if args.savePreds && !p.empty_test_set then [Event.writePredsFile] else [])
       (events, Except.ok ensemble_scores)) := by
  have hp : (prepare C args data).val_data = (C.splitData data).2.1 := rfl
  unfold run_training
  simp [hp, hval]

end RunTraining

namespace RunTraining

/-- C3: with a non-empty validation split but an empty test split, the
run completes, returns a score mapping sending every requested metric to
one `nan` per task, and persists that same mapping to the scores file. -/
theorem run_training_empty_test_nan {M S : Type} (C : Collaborators M S)
    (args : TrainArgs) (data : Dataset)
    (hval : (C.splitData data).2.1.length ≠ 0)
    (htest : (C.splitData data).2.2.length = 0) :
    (run_training C args data).2 =
      Except.ok (args.metrics.map (fun metric =>
        (metric, args.taskNames.map (fun _ => FloatVal.nan)))) ∧
    Event.writeScoresFile (dumpSortKeys (args.metrics.map (fun metric =>
      (metric, args.taskNames.map (fun _ => FloatVal.nan))))) ∈
      (run_training C args data).1 := by
  have hpt : (prepare C args data).empty_test_set = true := by
    simp [prepare, htest]
  rw [run_training_val_nonempty_shape C args data hval]
  constructor
  · simp [hpt]
  · simp [hpt]

theorem runEpoch_events_cases {M S : Type} (C : Collaborators M S) (args : TrainArgs)
    (chk : M → Checkpoint M S) (i : ℕ) (st : EpochState M S) (epoch : ℕ) :
    (runEpoch C args chk i st epoch).events = st.events ∨
    ∃ c, (runEpoch C args chk i st epoch).events =
      st.events ++ [Event.saveCheckpoint i c] := by
  unfold runEpoch
  dsimp only
  split
  · right; exact ⟨_, rfl⟩
  · left; rfl

theorem foldl_runEpoch_events {M S : Type} (C : Collaborators M S) (args : TrainArgs)
    (chk : M → Checkpoint M S) (i : ℕ) (l : List ℕ) (st : EpochState M S) :
    ∃ extra : List (Event M S),
      (l.foldl (runEpoch C args chk i) st).events = st.events ++ extra ∧
      ∀ e ∈ extra, ∃ c, e = Event.saveCheckpoint i c := by
  induction l generalizing st with
  | nil => exact ⟨[], by simp, by simp⟩
  | cons x xs ih =>
    obtain ⟨extra, hev, hsave⟩ := ih (runEpoch C args chk i st x)
    rcases runEpoch_events_cases C args chk i st x with h | ⟨c, h⟩
    · refine ⟨extra, ?_, hsave⟩
      rw [List.foldl_cons, hev, h]
    · refine ⟨Event.saveCheckpoint i c :: extra, ?_, ?_⟩
      · rw [List.foldl_cons, hev, h]
        simp
      · intro e he
        rcases List.mem_cons.mp he with he | he
        · exact ⟨c, he⟩
        · exact hsave e he

theorem runMember_events_decomp {M S : Type} (C : Collaborators M S)
    (args : TrainArgs) (scaler fScaler aScaler bScaler : Option S)
    (emptyTest : Bool) (i : ℕ) :
    ∃ mid, (runMember C args scaler fScaler aScaler bScaler emptyTest i).events =
        Event.saveCheckpoint i ⟨C.buildModel i, scaler, fScaler, aScaler, bScaler, args⟩ ::
          (mid ++ [Event.loadCheckpoint i]) ∧
        ∀ e ∈ mid, ∃ c, e = Event.saveCheckpoint i c := by
  obtain ⟨extra, hev, hsave⟩ := foldl_runEpoch_events C args
    (fun m => ⟨m, scaler, fScaler, aScaler, bScaler, args⟩) i (List.range args.epochs)
    { model := C.buildModel i,
      bestScore := if args.minimizeScore then .inf else .negInf,
      bestEpoch := 0,
      disk := ⟨C.buildModel i, scaler, fScaler, aScaler, bScaler, args⟩,
      savedEpochs := [],
      events := [.saveCheckpoint i ⟨C.buildModel i, scaler, fScaler, aScaler, bScaler, args⟩] }
  refine ⟨extra, ?_, hsave⟩
  unfold runMember
  dsimp only
  rw [hev]
  simp

/-- C10: every ensemble member's very first file-system event is the
save of a checkpoint bundling the freshly built model with the target,
features, atom-descriptor and bond-feature scalers and the arguments;
it precedes every epoch-loop save and the post-loop load, and with an
epoch budget of zero the load still finds that checkpoint and yields
the initial model. -/
theorem initial_checkpoint_saved_before_loop {M S : Type} (C : Collaborators M S)
    (args : TrainArgs) (scaler fScaler aScaler bScaler : Option S)
    (emptyTest : Bool) (i : ℕ) :
    (∃ mid, (runMember C args scaler fScaler aScaler bScaler emptyTest i).events =
        Event.saveCheckpoint i ⟨C.buildModel i, scaler, fScaler, aScaler, bScaler, args⟩ ::
          (mid ++ [Event.loadCheckpoint i]) ∧
        ∀ e ∈ mid, ∃ c, e = Event.saveCheckpoint i c) ∧
    (args.epochs = 0 →
      (runMember C args scaler fScaler aScaler bScaler emptyTest i).events =
        [Event.saveCheckpoint i ⟨C.buildModel i, scaler, fScaler, aScaler, bScaler, args⟩,
          Event.loadCheckpoint i] ∧
      (runMember C args scaler fScaler aScaler bScaler emptyTest i).loadedModel =
        C.buildModel i) := by
  constructor
  · exact runMember_events_decomp C args scaler fScaler aScaler bScaler emptyTest i
  · intro h0
    unfold runMember
    rw [h0]
    simp

end RunTraining

namespace RunTraining

theorem strLeAux_total (a b : List Char) : strLeAux a b = true ∨ strLeAux b a = true := by
  induction a generalizing b with
  | nil => left; rfl
  | cons x xs ih =>
    cases b with
    | nil => right; rfl
    | cons y ys =>
      by_cases h : x = y
      · subst h
        rcases ih ys with h2 | h2
        · left; simp [strLeAux, h2]
        · right; simp [strLeAux, h2]
      · rcases lt_or_gt_of_ne h with hlt | hgt
        · left; simp [strLeAux, h, hlt]
        · right; simp [strLeAux, Ne.symm h, hgt, not_lt.mpr (le_of_lt hgt)]

theorem strLeAux_trans (a b c : List Char) (h1 : strLeAux a b = true)
    (h2 : strLeAux b c = true) : strLeAux a c = true := by
  induction a generalizing b c with
  | nil => rfl
  | cons x xs ih =>
    cases b with
    | nil => simp [strLeAux] at h1
    | cons y ys =>
      cases c with
      | nil => simp [strLeAux] at h2
      | cons z zs =>
        by_cases hxy : x = y <;> by_cases hyz : y = z
        · subst hxy; subst hyz
          simp only [strLeAux, if_pos rfl] at h1 h2 ⊢
          exact ih ys zs h1 h2
        · subst hxy
          simp only [strLeAux, if_neg hyz] at h2 ⊢
          exact h2
        · subst hyz
          simp only [strLeAux, if_neg hxy] at h1 ⊢
          exact h1
        · simp only [strLeAux, if_neg hxy] at h1
          simp only [strLeAux, if_neg hyz] at h2
          have hxz : x < z := lt_trans (of_decide_eq_true h1) (of_decide_eq_true h2)
          simp [strLeAux, ne_of_lt hxz, hxz]

theorem entryLe_total {α : Type} (a b : String × α) : entryLe a b ∨ entryLe b a :=
  strLeAux_total a.1.data b.1.data

theorem entryLe_trans {α : Type} (a b c : String × α) (h1 : entryLe a b)
    (h2 : entryLe b c) : entryLe a c :=
  strLeAux_trans a.1.data b.1.data c.1.data h1 h2

theorem dumpSortKeys_sorted_perm {α : Type} (entries : List (String × α)) :
    List.Pairwise entryLe (dumpSortKeys entries) ∧
    List.Perm (dumpSortKeys entries) entries := by
  haveI : IsTotal (String × α) entryLe := ⟨entryLe_total⟩
  haveI : IsTrans (String × α) entryLe := ⟨entryLe_trans⟩
  exact ⟨List.sorted_insertionSort entryLe entries, List.perm_insertionSort entryLe entries⟩

theorem runMember_events_save_or_load {M S : Type} (C : Collaborators M S)
    (args : TrainArgs) (scaler fScaler aScaler bScaler : Option S)
    (emptyTest : Bool) (i : ℕ) :
    ∀ e ∈ (runMember C args scaler fScaler aScaler bScaler emptyTest i).events,
      isMemberEvent e = true := by
  obtain ⟨mid, hev, hmid⟩ :=
    runMember_events_decomp C args scaler fScaler aScaler bScaler emptyTest i
  intro e he
  rw [hev] at he
  rcases List.mem_cons.mp he with rfl | he
  · rfl
  · rcases List.mem_append.mp he with he | he
    · obtain ⟨c, rfl⟩ := hmid e he
      rfl
    · rcases List.mem_singleton.mp he with rfl
      rfl

end RunTraining

namespace RunTraining

theorem memberEvent_not_scoresWrite {M S : Type} (e : Event M S)
    (h : isMemberEvent e = true) : isScoresWrite e = false := by
  cases e <;> simp [isMemberEvent, isScoresWrite] at h ⊢

/-- C9: a completed run writes the scores file exactly once — every
member-directory event (checkpoint save/load) precedes the single
`test_scores.json` write, nothing after it is a scores write either —
and the persisted entries are the returned score mapping serialised with
its keys in sorted order. -/
theorem scores_file_written_once_at_end_sorted {M S : Type} (C : Collaborators M S)
    (args : TrainArgs) (data : Dataset)
    (hval : (C.splitData data).2.1.length ≠ 0) :
    ∃ scores pre post,
      run_training C args data =
        (pre ++ Event.writeScoresFile (dumpSortKeys scores) :: post, Except.ok scores) ∧
      (∀ e ∈ pre, isMemberEvent e = true ∧ isScoresWrite e = false) ∧
      (∀ e ∈ post, isMemberEvent e = false ∧ isScoresWrite e = false) ∧
      List.Pairwise entryLe (dumpSortKeys scores) ∧
      List.Perm (dumpSortKeys scores) scores := by
  rw [run_training_val_nonempty_shape C args data hval]
  dsimp only
  refine ⟨(if (prepare C args data).empty_test_set = true then
      args.metrics.map (fun metric => (metric, args.taskNames.map (fun _ => FloatVal.nan)))
    else
      C.evaluatePredictions (ensembleAvgPreds C args data)
        ((prepare C args data).test_data.map (fun d => d.targets))),
    (((List.range args.ensembleSize).map (memberOf C args data)).map
      (fun m => m.events)).flatten,
    (if (args.savePreds && !(prepare C args data).empty_test_set) = true then
      [Event.writePredsFile] else []),
    ?_, ?_, ?_, (dumpSortKeys_sorted_perm _).1, (dumpSortKeys_sorted_perm _).2⟩
  · rw [List.append_assoc, List.singleton_append]
  · intro e he
    obtain ⟨l, hl, hel⟩ := List.mem_flatten.mp he
    obtain ⟨m, hm, rfl⟩ := List.mem_map.mp hl
    obtain ⟨j, _, rfl⟩ := List.mem_map.mp hm
    have : isMemberEvent e = true := by
      have := runMember_events_save_or_load C args
        (prepare C args data).scaler (prepare C args data).features_scaler
        (prepare C args data).atom_descriptor_scaler (prepare C args data).bond_feature_scaler
        (prepare C args data).empty_test_set j
      exact this e hel
    exact ⟨this, memberEvent_not_scoresWrite e this⟩
  · intro e he
    split at he
    · rcases List.mem_singleton.mp he with rfl
      exact ⟨rfl, rfl⟩
    · simp at he

end RunTraining

namespace RunTraining

theorem FloatVal.lt_self_false (a : FloatVal) : FloatVal.lt a a = false := by
  cases a <;> simp [FloatVal.lt]

theorem betterThan_self_false (minimize : Bool) (a : FloatVal) :
    betterThan minimize a a = false := by
  cases minimize <;> simp [betterThan, FloatVal.lt_self_false]

theorem epochLoopState_spec {M S : Type} (C : Collaborators M S) (args : TrainArgs)
    (chk : M → Checkpoint M S) (i : ℕ) (model0 : M) (E : ℕ) :
    (epochLoopState C args chk i model0 E).model = C.trainOneEpoch^[E] model0 ∧
    (epochLoopState C args chk i model0 E).bestScore = runningBest C args model0 E ∧
    (epochLoopState C args chk i model0 E).savedEpochs =
      (List.range E).filter (fun e =>
        betterThan args.minimizeScore (scoreAt C args model0 e)
          (runningBest C args model0 e)) ∧
    (epochLoopState C args chk i model0 E).disk =
      chk (C.trainOneEpoch^[
        (match (epochLoopState C args chk i model0 E).savedEpochs.getLast? with
         | some e => e + 1
         | none => 0)] model0) ∧
    (epochLoopState C args chk i model0 E).bestEpoch =
      (match (epochLoopState C args chk i model0 E).savedEpochs.getLast? with
       | some e => e
       | none => 0) := by
  induction E with
  | zero =>
    refine ⟨?_, rfl, rfl, ?_, rfl⟩
    · simp [epochLoopState]
    · simp [epochLoopState]
  | succ E ih =>
    obtain ⟨hm, hb, hs, hd, he⟩ := ih
    have hstep : epochLoopState C args chk i model0 (E + 1) =
        runEpoch C args chk i (epochLoopState C args chk i model0 E) E := by
      unfold epochLoopState
      rw [List.range_succ, List.foldl_append, List.foldl_cons, List.foldl_nil]
    have hmean : C.multitaskMean
        (C.evaluate (C.trainOneEpoch (epochLoopState C args chk i model0 E).model)
          args.metric) args.metric = scoreAt C args model0 E := by
      rw [hm, scoreAt, Function.iterate_succ_apply']
    have hcond : (args.minimizeScore && FloatVal.lt (C.multitaskMean
        (C.evaluate (C.trainOneEpoch (epochLoopState C args chk i model0 E).model)
          args.metric) args.metric) (epochLoopState C args chk i model0 E).bestScore ||
        !args.minimizeScore && FloatVal.lt (epochLoopState C args chk i model0 E).bestScore
          (C.multitaskMean (C.evaluate
            (C.trainOneEpoch (epochLoopState C args chk i model0 E).model)
              args.metric) args.metric)) =
        betterThan args.minimizeScore (scoreAt C args model0 E)
          (runningBest C args model0 E) := by
      rw [betterThan, hmean, hb]
    rw [hstep]
    unfold runEpoch
    dsimp only
    rw [hcond]
    by_cases hbt : betterThan args.minimizeScore (scoreAt C args model0 E)
        (runningBest C args model0 E) = true
    · rw [if_pos hbt]
      refine ⟨?_, ?_, ?_, ?_, ?_⟩
      · dsimp only
        rw [hm, Function.iterate_succ_apply']
      · dsimp only
        rw [hmean, runningBest, if_pos hbt]
      · dsimp only
        rw [hs, List.range_succ, List.filter_append]
        simp [hbt]
      · dsimp only
        rw [List.getLast?_concat, hm, Function.iterate_succ_apply']
      · dsimp only
        rw [List.getLast?_concat]
    · rw [if_neg hbt]
      refine ⟨?_, ?_, ?_, ?_, ?_⟩
      · dsimp only
        rw [hm, Function.iterate_succ_apply']
      · dsimp only
        rw [hb, runningBest, if_neg hbt]
      · dsimp only
        rw [hs, List.range_succ, List.filter_append]
        simp [hbt]
      · exact hd
      · exact he

end RunTraining

namespace RunTraining

/-- C4: during the epoch loop a checkpoint is saved at epoch `e` iff the
primary metric's aggregate validation score at `e` strictly improves on
the best seen so far, in the direction fixed by `args.minimize_score`;
an exact tie never triggers a save; and after the loop the model is
reloaded from the checkpoint on disk, which is the initial model when no
epoch ever improved and otherwise the weights of the last (best) saved
epoch, which is also the recorded `best_epoch`. -/
theorem checkpoint_iff_strict_improvement {M S : Type} (C : Collaborators M S)
    (args : TrainArgs) (scaler fScaler aScaler bScaler : Option S)
    (emptyTest : Bool) (i : ℕ) :
    (∀ e, e ∈ (runMember C args scaler fScaler aScaler bScaler emptyTest i).finalState.savedEpochs ↔
      (e < args.epochs ∧
        betterThan args.minimizeScore (scoreAt C args (C.buildModel i) e)
          (runningBest C args (C.buildModel i) e) = true)) ∧
    (∀ e, scoreAt C args (C.buildModel i) e = runningBest C args (C.buildModel i) e →
      e ∉ (runMember C args scaler fScaler aScaler bScaler emptyTest i).finalState.savedEpochs) ∧
    ((runMember C args scaler fScaler aScaler bScaler emptyTest i).finalState.savedEpochs = [] →
      (runMember C args scaler fScaler aScaler bScaler emptyTest i).loadedModel =
        C.buildModel i) ∧
    (∀ e, (runMember C args scaler fScaler aScaler bScaler emptyTest i).finalState.savedEpochs.getLast? =
        some e →
      (runMember C args scaler fScaler aScaler bScaler emptyTest i).finalState.bestEpoch = e ∧
      (runMember C args scaler fScaler aScaler bScaler emptyTest i).loadedModel =
        C.trainOneEpoch^[e + 1] (C.buildModel i)) := by
  have hfin : (runMember C args scaler fScaler aScaler bScaler emptyTest i).finalState =
      epochLoopState C args (fun m => ⟨m, scaler, fScaler, aScaler, bScaler, args⟩) i
        (C.buildModel i) args.epochs := rfl
  have hload : (runMember C args scaler fScaler aScaler bScaler emptyTest i).loadedModel =
      (runMember C args scaler fScaler aScaler bScaler emptyTest i).finalState.disk.model :=
    rfl
  obtain ⟨hm, hb, hs, hd, he⟩ := epochLoopState_spec C args
    (fun m => ⟨m, scaler, fScaler, aScaler, bScaler, args⟩) i (C.buildModel i) args.epochs
  refine ⟨?_, ?_, ?_, ?_⟩
  · intro e
    rw [hfin, hs]
    simp [List.mem_filter, List.mem_range]
  · intro e hteq
    rw [hfin, hs]
    simp only [List.mem_filter, List.mem_range]
    rintro ⟨-, hbt⟩
    rw [hteq, betterThan_self_false] at hbt
    exact Bool.false_ne_true hbt
  · intro hnil
    rw [hload, hfin, hd]
    rw [hfin] at hnil
    rw [hnil]
    simp
  · intro e hlast
    rw [hfin] at hlast
    constructor
    · rw [hfin, he, hlast]
    · rw [hload, hfin, hd, hlast]

end RunTraining

namespace RunTraining

theorem getD_zipWith_add (a b : List ℚ) (h : a.length = b.length) (c : ℕ) :
    (List.zipWith (· + ·) a b).getD c 0 = a.getD c 0 + b.getD c 0 := by
  induction a generalizing b c with
  | nil =>
    cases b with
    | nil => simp
    | cons y ys => simp at h
  | cons x xs ih =>
    cases b with
    | nil => simp at h
    | cons y ys =>
      cases c with
      | zero => simp
      | succ c => simpa using ih ys (by simpa using h) c

theorem getD_zipWith_rows (A B : List (List ℚ)) (h : A.length = B.length) (r : ℕ) :
    (List.zipWith (List.zipWith (· + ·)) A B).getD r [] =
      List.zipWith (· + ·) (A.getD r []) (B.getD r []) := by
  induction A generalizing B r with
  | nil =>
    cases B with
    | nil => simp
    | cons y ys => simp at h
  | cons x xs ih =>
    cases B with
    | nil => simp at h
    | cons y ys =>
      cases r with
      | zero => simp
      | succ r => simpa using ih ys (by simpa using h) r

theorem hasShape_replicate (rows cols : ℕ) :
    hasShape (List.replicate rows (List.replicate cols (0 : ℚ))) rows cols := by
  refine ⟨by simp, ?_⟩
  intro row hrow
  rw [List.eq_of_mem_replicate hrow]
  simp

theorem getD_length_of_shape (A : List (List ℚ)) (rows cols r : ℕ)
    (hA : hasShape A rows cols) :
    (A.getD r []).length = if r < rows then cols else 0 := by
  by_cases h : r < A.length
  · rw [List.getD_eq_getElem A [] h]
    rw [if_pos (hA.1 ▸ h)]
    exact hA.2 _ (List.getElem_mem h)
  · rw [List.getD_eq_default A [] (le_of_not_lt h)]
    rw [if_neg (by rw [← hA.1]; exact h)]
    rfl

theorem hasShape_matAdd (A B : List (List ℚ)) (rows cols : ℕ)
    (hA : hasShape A rows cols) (hB : hasShape B rows cols) :
    hasShape (matAdd A B) rows cols := by
  refine ⟨by simp [matAdd, hA.1, hB.1], ?_⟩
  intro row hrow
  obtain ⟨i, hi, hrw⟩ := List.mem_iff_getElem.mp hrow
  have hlen : (matAdd A B).length = rows := by simp [matAdd, hA.1, hB.1]
  rw [hlen] at hi
  have hiA : i < A.length := by rw [hA.1]; exact hi
  have hiB : i < B.length := by rw [hB.1]; exact hi
  rw [← hrw]
  simp only [matAdd, List.getElem_zipWith, List.length_zipWith]
  rw [hA.2 _ (List.getElem_mem hiA), hB.2 _ (List.getElem_mem hiB)]
  simp

theorem mEntry_matAdd (A B : List (List ℚ)) (rows cols : ℕ)
    (hA : hasShape A rows cols) (hB : hasShape B rows cols) (r c : ℕ) :
    mEntry (matAdd A B) r c = mEntry A r c + mEntry B r c := by
  unfold mEntry matAdd
  rw [getD_zipWith_rows A B (by rw [hA.1, hB.1])]
  exact getD_zipWith_add _ _
    (by rw [getD_length_of_shape A rows cols r hA, getD_length_of_shape B rows cols r hB]) c

theorem mEntry_foldl_matAdd (ms : List (List (List ℚ))) (rows cols : ℕ)
    (acc : List (List ℚ)) (hacc : hasShape acc rows cols)
    (hms : ∀ m ∈ ms, hasShape m rows cols) (r c : ℕ) :
    mEntry (ms.foldl matAdd acc) r c =
      mEntry acc r c + (ms.map (fun m => mEntry m r c)).sum ∧
    hasShape (ms.foldl matAdd acc) rows cols := by
  induction ms generalizing acc with
  | nil => simpa using hacc
  | cons m ms ih =>
    have hm : hasShape m rows cols := hms m (by simp)
    have hrest : ∀ x ∈ ms, hasShape x rows cols := fun x hx => hms x (by simp [hx])
    obtain ⟨he, hs⟩ := ih (matAdd acc m) (hasShape_matAdd acc m rows cols hacc hm) hrest
    refine ⟨?_, by simpa using hs⟩
    rw [List.foldl_cons, he, mEntry_matAdd acc m rows cols hacc hm]
    simp [add_assoc]

theorem mEntry_matDiv (A : List (List ℚ)) (n : ℕ) (r c : ℕ) :
    mEntry (matDiv A n) r c = mEntry A r c / (n : ℚ) := by
  unfold mEntry matDiv
  by_cases hr : r < A.length
  · rw [List.getD_eq_getElem _ [] (by simpa using hr), List.getElem_map,
      List.getD_eq_getElem A [] hr]
    by_cases hc : c < (A[r]).length
    · rw [List.getD_eq_getElem _ 0 (by simpa using hc), List.getElem_map,
        List.getD_eq_getElem _ 0 hc]
    · rw [List.getD_eq_default _ 0 (by simpa using le_of_not_lt hc),
        List.getD_eq_default _ 0 (le_of_not_lt hc), zero_div]
  · rw [List.getD_eq_default _ [] (by simpa using le_of_not_lt hr),
      List.getD_eq_default A [] (le_of_not_lt hr)]
    simp

theorem mEntry_replicate_zero (rows cols r c : ℕ) :
    mEntry (List.replicate rows (List.replicate cols (0 : ℚ))) r c = 0 := by
  unfold mEntry
  by_cases hr : r < rows
  · rw [List.getD_eq_getElem _ [] (by simpa using hr), List.getElem_replicate]
    by_cases hc : c < cols
    · rw [List.getD_eq_getElem _ 0 (by simpa using hc), List.getElem_replicate]
    · rw [List.getD_eq_default _ 0 (by simpa using le_of_not_lt hc)]
  · rw [List.getD_eq_default _ [] (by simpa using le_of_not_lt hr)]
    rfl

end RunTraining

namespace RunTraining

/-- C1: with a non-empty test set, the run returns the scores obtained
by applying `evaluate_predictions` to the ensemble-averaged test
predictions — not an average of per-member scores — and every entry of
the averaged prediction matrix is the arithmetic mean (sum divided by
ensemble size) of the members' corresponding prediction entries. -/
theorem ensemble_mean_prediction_evaluated {M S : Type} (C : Collaborators M S)
    (args : TrainArgs) (data : Dataset)
    (hval : (C.splitData data).2.1.length ≠ 0)
    (htest : (C.splitData data).2.2.length ≠ 0)
    (hshape : ∀ i < args.ensembleSize,
      hasShape (memberTestPreds C args data i) (C.splitData data).2.2.length args.numTasks) :
    (run_training C args data).2 =
      Except.ok (C.evaluatePredictions (ensembleAvgPreds C args data)
        ((C.splitData data).2.2.map (fun d => d.targets))) ∧
    ∀ r c, mEntry (ensembleAvgPreds C args data) r c =
      ((List.range args.ensembleSize).map
        (fun i => mEntry (memberTestPreds C args data i) r c)).sum /
        (args.ensembleSize : ℚ) := by
  have hpt : (prepare C args data).empty_test_set = false := by
    simp only [prepare]
    simpa using htest
  have hmemtp : ∀ i, (memberOf C args data i).testPreds =
      some (memberTestPreds C args data i) := by
    intro i
    unfold memberTestPreds memberOf runMember
    dsimp only
    rw [hpt]
    simp
  constructor
  · rw [run_training_val_nonempty_shape C args data hval]
    dsimp only
    rw [hpt]
    simp
    rfl
  · intro r c
    have hshapes : ∀ m ∈ (List.range args.ensembleSize).map (memberTestPreds C args data),
        hasShape m (C.splitData data).2.2.length args.numTasks := by
      intro m hm
      obtain ⟨i, hi, rfl⟩ := List.mem_map.mp hm
      exact hshape i (List.mem_range.mp hi)
    have hsum : sumTestPreds C args data =
        ((List.range args.ensembleSize).map (memberTestPreds C args data)).foldl matAdd
          (List.replicate (C.splitData data).2.2.length
            (List.replicate args.numTasks (0 : ℚ))) := by
      unfold sumTestPreds
      dsimp only
      rw [List.foldl_map, List.foldl_map]
      apply List.foldl_ext
      intro acc x hx
      rw [hmemtp x]
      dsimp only
      rw [if_pos]
      rw [(hshape x (List.mem_range.mp hx)).1]
      exact htest
    have hfold := mEntry_foldl_matAdd
      ((List.range args.ensembleSize).map (memberTestPreds C args data))
      (C.splitData data).2.2.length args.numTasks
      (List.replicate (C.splitData data).2.2.length (List.replicate args.numTasks (0 : ℚ)))
      (hasShape_replicate _ _) hshapes r c
    unfold ensembleAvgPreds
    rw [mEntry_matDiv, hsum, hfold.1, mEntry_replicate_zero, zero_add, List.map_map]
    rfl

end RunTraining

namespace RunTraining

/-- Witness for C2: a concrete run with an empty validation split
aborts before any event. -/
theorem run_training_empty_val_fatal_witness :
    (demoCollabEmptyVal.splitData demoData).2.1.length = 0 ∧
    run_training demoCollabEmptyVal demoArgs demoData =
      ([], Except.error (RunError.configurationError emptyValMessage)) :=
  ⟨rfl, run_training_empty_val_fatal demoCollabEmptyVal demoArgs demoData rfl⟩

/-- Witness for C3: a concrete run with an empty test split returns and
persists one `nan` per metric and task. -/
theorem run_training_empty_test_nan_witness :
    (demoCollabEmptyTest.splitData demoData).2.1.length ≠ 0 ∧
    (demoCollabEmptyTest.splitData demoData).2.2.length = 0 ∧
    ((run_training demoCollabEmptyTest demoArgs demoData).2 =
      Except.ok (demoArgs.metrics.map (fun metric =>
        (metric, demoArgs.taskNames.map (fun _ => FloatVal.nan)))) ∧
    Event.writeScoresFile (dumpSortKeys (demoArgs.metrics.map (fun metric =>
      (metric, demoArgs.taskNames.map (fun _ => FloatVal.nan))))) ∈
      (run_training demoCollabEmptyTest demoArgs demoData).1) :=
  ⟨by decide, rfl,
    run_training_empty_test_nan demoCollabEmptyTest demoArgs demoData (by decide) rfl⟩

/-- Witness for C4: with constant validation scores, epoch 1 exactly
ties the best seen so far and is not checkpointed. -/
theorem checkpoint_iff_strict_improvement_witness :
    scoreAt demoCollabTie demoArgs (demoCollabTie.buildModel 0) 1 =
      runningBest demoCollabTie demoArgs (demoCollabTie.buildModel 0) 1 ∧
    1 ∉ (runMember demoCollabTie demoArgs none none none none false 0).finalState.savedEpochs :=
  ⟨by decide,
    (checkpoint_iff_strict_improvement demoCollabTie demoArgs
      none none none none false 0).2.1 1 (by decide)⟩

/-- Witness for C9: a concrete completed run writes the scores file
exactly once, after all member events, with sorted keys. -/
theorem scores_file_written_once_at_end_sorted_witness :
    (demoCollab.splitData demoData).2.1.length ≠ 0 ∧
    (∃ scores pre post,
      run_training demoCollab demoArgs demoData =
        (pre ++ Event.writeScoresFile (dumpSortKeys scores) :: post, Except.ok scores) ∧
      (∀ e ∈ pre, isMemberEvent e = true ∧ isScoresWrite e = false) ∧
      (∀ e ∈ post, isMemberEvent e = false ∧ isScoresWrite e = false) ∧
      List.Pairwise entryLe (dumpSortKeys scores) ∧
      List.Perm (dumpSortKeys scores) scores) :=
  ⟨by decide,
    scores_file_written_once_at_end_sorted demoCollab demoArgs demoData (by decide)⟩

/-- Witness for C10: with a zero epoch budget the concrete member's
trace is exactly the initial checkpoint save followed by the load, which
recovers the initial model. -/
theorem initial_checkpoint_saved_before_loop_witness :
    demoArgsZeroEpochs.epochs = 0 ∧
    ((runMember demoCollab demoArgsZeroEpochs none none none none false 0).events =
      [Event.saveCheckpoint 0
        ⟨demoCollab.buildModel 0, none, none, none, none, demoArgsZeroEpochs⟩,
        Event.loadCheckpoint 0] ∧
      (runMember demoCollab demoArgsZeroEpochs none none none none false 0).loadedModel =
        demoCollab.buildModel 0) :=
  ⟨rfl, (initial_checkpoint_saved_before_loop demoCollab demoArgsZeroEpochs
    none none none none false 0).2 rfl⟩

/-- Witness for C1: for the concrete two-member ensemble, the returned
scores come from evaluating the averaged predictions and every averaged
entry is the members' mean. -/
theorem ensemble_mean_prediction_evaluated_witness :
    (demoCollab.splitData demoData).2.1.length ≠ 0 ∧
    (demoCollab.splitData demoData).2.2.length ≠ 0 ∧
    (∀ i < demoArgs.ensembleSize,
      hasShape (memberTestPreds demoCollab demoArgs demoData i)
        (demoCollab.splitData demoData).2.2.length demoArgs.numTasks) ∧
    ((run_training demoCollab demoArgs demoData).2 =
      Except.ok (demoCollab.evaluatePredictions (ensembleAvgPreds demoCollab demoArgs demoData)
        ((demoCollab.splitData demoData).2.2.map (fun d => d.targets))) ∧
    ∀ r c, mEntry (ensembleAvgPreds demoCollab demoArgs demoData) r c =
      ((List.range demoArgs.ensembleSize).map
        (fun i => mEntry (memberTestPreds demoCollab demoArgs demoData i) r c)).sum /
        (demoArgs.ensembleSize : ℚ)) :=
  ⟨by decide, by decide, by decide,
    ensemble_mean_prediction_evaluated demoCollab demoArgs demoData
      (by decide) (by decide) (by decide)⟩

end RunTraining
